import Mathlib

/-!
Verification of the leads-file reconciliation / geospatial-baseline logic of
the Inventory repository (src/app/views/hubspot_leads_file.py and
src/app/views/google_earth_file.py), as a shallow embedding in Lean 4.

Cell values are modelled as the strings pandas produces after `dtype=str`
loading plus `astype(str)` coercion; a missing (NaN) cell surfaces as the
string "nan", exactly as `astype(str)` renders it.  Excel-byte parsing and
HTTP calls sit outside the embedding: functions that consume them take the
already-decoded rows, or an `Except` value standing for the call's outcome.
-/

/-! ## Python string primitives -/

/-- Model of Python `str.strip()`: drop whitespace from both ends. -/
def pyStripList (l : List Char) : List Char :=
  ((l.dropWhile Char.isWhitespace).reverse.dropWhile Char.isWhitespace).reverse

/-- Model of Python `str.strip()` on `String`. -/
def pyStrip (s : String) : String :=
  String.mk (pyStripList s.data)

/-- Model of Python `str.lower()` (ASCII case folding, which covers every
token the source compares against). -/
def pyLower (s : String) : String :=
  String.mk (s.data.map Char.toLower)

/-- Model of `s.replace(",", "")`: drop every comma. -/
def stripCommas (s : String) : String :=
  String.mk (s.data.filter (fun c => c ≠ ','))

/-- Digits of a decimal numeral folded to a `Nat` (value of `int(s)` for a
plain digit string). -/
def digitsToNat (cs : List Char) : Nat :=
  cs.foldl (fun a c => a * 10 + (c.toNat - 48)) 0

/-- Model of Python `int(s)` on an already-stripped string: an optional sign
followed by one or more decimal digits.  (Python also tolerates underscores
between digits; no caller feeds those, so they are out of scope.)  Returns
`none` where `int` raises `ValueError`. -/
def parseIntOpt (s : String) : Option Int :=
  let cs := s.data
  let (neg, ds) :=
    match cs with
    | '-' :: t => (true, t)
    | '+' :: t => (false, t)
    | _ => (false, cs)
  if ds ≠ [] ∧ ds.all Char.isDigit then
    some (if neg then -(digitsToNat ds : Int) else (digitsToNat ds : Int))
  else none

/-- Model of Python `float(s)` followed by `int(f)` / `f.is_integer()`, for a
decimal literal `[sign] digits [ "." digits ]`: returns the toward-zero
truncation of the value and whether the value is an integer.  Exponent
notation and inf/nan literals are out of scope (every caller either rejects
those strings earlier or treats the parse failure the same way). -/
def parseDecimal (s : String) : Option (Int × Bool) :=
  let cs := s.data
  let (neg, rest) :=
    match cs with
    | '-' :: t => (true, t)
    | '+' :: t => (false, t)
    | _ => (false, cs)
  let intPart := rest.takeWhile Char.isDigit
  let tail := rest.dropWhile Char.isDigit
  match tail with
  | [] =>
      if intPart ≠ [] then
        some (if neg then -(digitsToNat intPart : Int) else (digitsToNat intPart : Int), true)
      else none
  | '.' :: frac =>
      if frac.all Char.isDigit ∧ (intPart ≠ [] ∨ frac ≠ []) then
        some (if neg then -(digitsToNat intPart : Int) else (digitsToNat intPart : Int),
              frac.all (fun c => c = '0'))
      else none
  | _ => none

/-! ## Calendar dates -/

/-- A calendar date (proleptic Gregorian), as Python `datetime.date`. -/
structure SDate where
  year : Nat
  month : Nat
  day : Nat
deriving DecidableEq, Repr

def isLeapYear (y : Nat) : Bool :=
  y % 4 = 0 ∧ (y % 100 ≠ 0 ∨ y % 400 = 0)

def daysInMonth (y m : Nat) : Nat :=
  if m = 2 then (if isLeapYear y then 29 else 28)
  else if m = 4 ∨ m = 6 ∨ m = 9 ∨ m = 11 then 30
  else 31

/-- Civil date from a day count, with `z = 0` at 0000-03-01 of the proleptic
Gregorian calendar (the standard era-based algorithm, kept in `Nat` because
every day count the embedding feeds it is in range). -/
def civilFromZ (z : Nat) : SDate :=
  let era := z / 146097
  let doe := z % 146097
  let yoe := (doe - doe / 1460 + doe / 36524 - doe / 146096) / 365
  let y := yoe + era * 400
  let doy := doe - (365 * yoe + yoe / 4 - yoe / 100)
  let mp := (5 * doy + 2) / 153
  let d := doy - (153 * mp + 2) / 5 + 1
  let m := if mp < 10 then mp + 3 else mp - 9
  { year := if m ≤ 2 then y + 1 else y, month := m, day := d }

/-- Offset of the spreadsheet serial epoch 1899-12-30 in the `civilFromZ`
day count. -/
def serialEpochZ : Nat := 693899

/-- `datetime(1899,12,30) + timedelta(days)` as Python computes it: the sum
must land inside `datetime`'s year range 1..9999 (0001-01-01 is day count
306, 9999-12-31 is day count 3652364), otherwise `OverflowError` is raised,
which the callers catch and turn into a parse failure. -/
def serialToDateOpt (days : Int) : Option SDate :=
  let z : Int := days + (serialEpochZ : Int)
  if 306 ≤ z ∧ z ≤ 3652364 then some (civilFromZ z.toNat) else none

/-- Zero-padded two-digit rendering, as `strftime` `%m` / `%d`. -/
def pad2 (n : Nat) : String :=
  if n < 10 then "0" ++ toString n else toString n

/-- `strftime("%m/%d/%Y")` (every date the pipelines format has a four-digit
year, so the year needs no padding). -/
def fmtDateMDY (d : SDate) : String :=
  pad2 d.month ++ "/" ++ pad2 d.day ++ "/" ++ toString d.year

/-- All-digit check used by the `strptime` field models. -/
def allDigits (cs : List Char) : Bool :=
  cs ≠ [] ∧ cs.all Char.isDigit

/-- A `strptime` month/day field: one or two digits. -/
def parseField2 (s : String) : Option Nat :=
  if allDigits s.data ∧ s.data.length ≤ 2 then some (digitsToNat s.data) else none

/-- A `strptime` `%Y` field: one to four digits. -/
def parseField4 (s : String) : Option Nat :=
  if allDigits s.data ∧ s.data.length ≤ 4 then some (digitsToNat s.data) else none

/-- Calendar validity as `datetime.date` enforces it. -/
def validDate (y m d : Nat) : Bool :=
  1 ≤ y ∧ y ≤ 9999 ∧ 1 ≤ m ∧ m ≤ 12 ∧ 1 ≤ d ∧ d ≤ daysInMonth y m

/-- Split a character list at every occurrence of a separator (the list
counterpart of `splitOn` for a one-character separator). -/
def splitOnChar (sep : Char) : List Char → List (List Char)
  | [] => [[]]
  | c :: t =>
      match splitOnChar sep t with
      | [] => if c = sep then [[], []] else [[c]]
      | h :: rest => if c = sep then [] :: h :: rest else (c :: h) :: rest

/-- `splitOnChar` lifted to strings. -/
def splitOnStr (sep : Char) (s : String) : List String :=
  (splitOnChar sep s.data).map String.mk

/-- Model of `datetime.strptime(s, "%m/%d/%Y").date()`. -/
def strptimeMDY (s : String) : Option SDate :=
  match splitOnStr '/' s with
  | [ms, ds, ys] =>
      match parseField2 ms, parseField2 ds, parseField4 ys with
      | some m, some d, some y => if validDate y m d then some ⟨y, m, d⟩ else none
      | _, _, _ => none
  | _ => none

/-- Model of `datetime.strptime(s, "%Y-%m-%d").date()`. -/
def strptimeYMD (s : String) : Option SDate :=
  match splitOnStr '-' s with
  | [ys, ms, ds] =>
      match parseField4 ys, parseField2 ms, parseField2 ds with
      | some y, some m, some d => if validDate y m d then some ⟨y, m, d⟩ else none
      | _, _, _ => none
  | _ => none

/-! ## google_earth_file.py — baseline differ pipeline -/

/-- `_normalize_yes_no` of google_earth_file.py. -/
def normalizeYesNo (v : String) : String :=
  let s := pyLower (pyStrip v)
  if s = "" then ""
  else if s = "yes" ∨ s = "y" ∨ s = "true" ∨ s = "1" then "Yes"
  else if s = "no" ∨ s = "n" ∨ s = "false" ∨ s = "0" then "No"
  else ""

/-- `_is_effectively_empty` of google_earth_file.py. -/
def isEffectivelyEmpty (v : String) : Bool :=
  let s := pyLower (pyStrip v)
  s = "" ∨ s = "nan" ∨ s = "none" ∨ s = "null" ∨ s = "nat" ∨ s = "-"

/-- `_parse_excel_serial` of google_earth_file.py: `float(s)` truncated to a
day count, added to the 1899-12-30 origin.  There is no 1..60000 range check
in this path; only a `datetime` overflow (caught by the `except`) rejects. -/
def parseExcelSerial (s : String) : Option SDate :=
  match parseDecimal s with
  | some (days, _) => serialToDateOpt days
  | none => none

/-- `_parse_us_date` of google_earth_file.py: empty-like values parse to
nothing, then `MM/DD/YYYY`, then `YYYY-MM-DD`, then the spreadsheet serial. -/
def parseUsDate (v : String) : Option SDate :=
  if isEffectivelyEmpty v then none
  else
    let s := pyStrip v
    match strptimeMDY s with
    | some d => some d
    | none =>
        match strptimeYMD s with
        | some d => some d
        | none => parseExcelSerial s

/-- One raw spreadsheet row of the four required Google Earth columns
(Id, Has Fence on Google Earth, Google Earth Last Picture At,
Google Earth Last Checked At), as strings. -/
structure GERawRow where
  id : String
  fence : String
  pic : String
  chk : String
deriving DecidableEq, Repr

/-- `drop_duplicates(keep="last")` on a key: keep a row iff no later row has
the same key, preserving order — pandas keep-last semantics. -/
def keepLastWins (key : α → String) : List α → List α
  | [] => []
  | x :: xs =>
      (if xs.any (fun y => key y = key x) then [] else [x]) ++ keepLastWins key xs

/-- `_dedupe_last_wins` of google_earth_file.py: strip Id, drop empty Ids,
deduplicate by Id keeping the last occurrence. -/
def dedupeLastWins (rows : List GERawRow) : List GERawRow :=
  keepLastWins (fun r => r.id)
    ((rows.map (fun r => { r with id := pyStrip r.id })).filter (fun r => r.id ≠ ""))

/-- One normalized record of the baseline-differ Snapshot (output row of
`normalize_excel_bytes`; the derived `row_hash` column is not modelled — it
is consumed nowhere in the differ). -/
structure GENormRow where
  id : String
  hasFence : String
  lastPicture : Option SDate
  lastChecked : Option SDate
deriving DecidableEq, Repr

/-- Metrics dict of `normalize_excel_bytes`. -/
structure GEMetrics where
  totalRowsInput : Nat
  rowsAfterIdFilter : Nat
  discardedEmptyId : Nat
  invalidDatePicture : Nat
  invalidDateChecked : Nat
deriving DecidableEq, Repr

/-- The per-cell strip applied to the four required columns of
`normalize_excel_bytes` before deduplication. -/
def trimGERow (r : GERawRow) : GERawRow :=
  { id := pyStrip r.id, fence := pyStrip r.fence, pic := pyStrip r.pic, chk := pyStrip r.chk }

/-- `normalize_excel_bytes` of google_earth_file.py from the decoded rows
onward (`pd.read_excel` itself is outside the embedding): strip the four
required columns, deduplicate by Id (last wins), normalize the fence flag
and the two date columns, and report metrics plus capped (20 per column)
invalid-date samples. -/
def normalizeExcelRows (rowsRaw : List GERawRow) :
    List GENormRow × GEMetrics × (List (String × String) × List (String × String)) :=
  let rows := rowsRaw.map trimGERow
  let total := rows.length
  let df := dedupeLastWins rows
  let afterId := df.length
  let discarded := total - afterId
  let out := df.map (fun r =>
    { id := r.id, hasFence := normalizeYesNo r.fence,
      lastPicture := parseUsDate r.pic, lastChecked := parseUsDate r.chk })
  let invalidPicRows := df.filter (fun r => (parseUsDate r.pic).isNone ∧ ¬ isEffectivelyEmpty r.pic)
  let invalidChkRows := df.filter (fun r => (parseUsDate r.chk).isNone ∧ ¬ isEffectivelyEmpty r.chk)
  (out,
   { totalRowsInput := total, rowsAfterIdFilter := afterId, discardedEmptyId := discarded,
     invalidDatePicture := invalidPicRows.length, invalidDateChecked := invalidChkRows.length },
   ((invalidPicRows.map (fun r => (r.id, r.pic))).take 20,
    (invalidChkRows.map (fun r => (r.id, r.chk))).take 20))

/-- The tracked comparison tuple of `compare_new_vs_baseline`:
(has_fence, last_picture, last_checked). -/
def tupleAt (df : List GENormRow) (i : String) : Option (String × Option SDate × Option SDate) :=
  (df.find? (fun r => r.id = i)).map (fun r => (r.hasFence, r.lastPicture, r.lastChecked))

/-- Identifiers classified `added` by `compare_new_vs_baseline`: in the new
Snapshot, absent from the baseline. -/
def addedIds (newDf baseDf : List GENormRow) : List String :=
  (newDf.map (fun r => r.id)).filter (fun i => ¬ baseDf.any (fun r => r.id = i))

/-- Identifiers present in both Snapshots. -/
def commonIds (newDf baseDf : List GENormRow) : List String :=
  (newDf.map (fun r => r.id)).filter (fun i => baseDf.any (fun r => r.id = i))

/-- Identifiers classified `modified`: in both, tracked tuple differs. -/
def modifiedIds (newDf baseDf : List GENormRow) : List String :=
  (commonIds newDf baseDf).filter (fun i => tupleAt newDf i ≠ tupleAt baseDf i)

/-- Identifiers classified `unchanged`: in both, tracked tuple equal. -/
def unchangedIds (newDf baseDf : List GENormRow) : List String :=
  (commonIds newDf baseDf).filter (fun i => tupleAt newDf i = tupleAt baseDf i)

/-- Summary dict of `compare_new_vs_baseline`. -/
structure CompareSummary where
  newRecords : Nat
  modifiedRecords : Nat
  unchangedRecords : Nat
  totalNew : Nat
  totalBaseline : Nat
  addedIdsSample : List String
  modifiedIdsSample : List String
deriving DecidableEq, Repr

/-- `compare_new_vs_baseline` of google_earth_file.py. -/
def compareNewVsBaseline (newDf baseDf : List GENormRow) : CompareSummary :=
  { newRecords := (addedIds newDf baseDf).length
    modifiedRecords := (modifiedIds newDf baseDf).length
    unchangedRecords := (unchangedIds newDf baseDf).length
    totalNew := newDf.length
    totalBaseline := baseDf.length
    addedIdsSample := (addedIds newDf baseDf).take 10
    modifiedIdsSample := (modifiedIds newDf baseDf).take 10 }

/-- `decide_replace` of google_earth_file.py. -/
def decideReplace (s : CompareSummary) : Bool :=
  s.newRecords + s.modifiedRecords > 0

/-! ## hubspot_leads_file.py — leads pipeline -/

/-- `_norm_id` of hubspot_leads_file.py: trim; empty/nan/none/null to "";
strip commas; numeric-looking integer values to their canonical integer
string; plain digit strings likewise; anything else kept trimmed as-is. -/
def normId (s0 : String) : String :=
  let s := pyStrip s0
  if s = "" ∨ pyLower s = "nan" ∨ pyLower s = "none" ∨ pyLower s = "null" then ""
  else
    let snc := stripCommas s
    match parseDecimal snc with
    | some (n, true) => toString n
    | _ =>
        if snc.data ≠ [] ∧ snc.data.all Char.isDigit then toString (digitsToNat snc.data)
        else s

/-- `_normalize_yes_no_ge` of hubspot_leads_file.py. -/
def normalizeYesNoGe (v : String) : String :=
  let s := pyLower (pyStrip v)
  if s = "yes" ∨ s = "y" ∨ s = "true" ∨ s = "1" then "Yes"
  else if s = "no" ∨ s = "n" ∨ s = "false" ∨ s = "0" then "No"
  else ""

/-- `_parse_to_mmddyyyy_ge` of hubspot_leads_file.py on a string cell (the
`datetime`/`Timestamp` instance branch concerns natively-typed cells and is
outside the string model): empty-like to ""; `MM/DD/YYYY` or `YYYY-MM-DD`
reformatted; else a spreadsheet serial accepted only in 1..60000. -/
def parseToMMDDYYYYGe (v : String) : String :=
  let s := pyStrip v
  if s = "" ∨ pyLower s = "nan" ∨ pyLower s = "null" ∨ pyLower s = "none" ∨
     pyLower s = "nat" ∨ pyLower s = "-" then ""
  else
    match strptimeMDY s with
    | some d => fmtDateMDY d
    | none =>
        match strptimeYMD s with
        | some d => fmtDateMDY d
        | none =>
            match parseDecimal s with
            | some (days, _) =>
                if 1 ≤ days ∧ days ≤ 60000 then
                  match serialToDateOpt days with
                  | some d => fmtDateMDY d
                  | none => ""
                else ""
            | none => ""

/-- `_fmt_mmddyyyy` of hubspot_leads_file.py: blank-like to "", otherwise
`pd.to_datetime(..., errors="coerce")` re-rendered as `MM/DD/YYYY`.  The
flexible pandas parser is modelled on the two canonical date shapes the
update payloads carry; no claim depends on this value. -/
def fmtMmddyyyy (v : String) : String :=
  let s := pyStrip v
  if s = "" ∨ pyLower s = "nan" ∨ pyLower s = "null" ∨ pyLower s = "none" then ""
  else
    match strptimeMDY s with
    | some d => fmtDateMDY d
    | none =>
        match strptimeYMD s with
        | some d => fmtDateMDY d
        | none => ""

/-- The seven AFTER_LEADSTATUS tracked columns, in list order. -/
inductive AfterCol
  | contactedOn
  | promosDate
  | promos
  | nextYearDate
  | nextYear
  | noContact
  | eligible
deriving DecidableEq, Repr

/-- AFTER_LEADSTATUS, as the list of column tags in source order. -/
def allAfterCols : List AfterCol :=
  [.contactedOn, .promosDate, .promos, .nextYearDate, .nextYear, .noContact, .eligible]

/-- DEFAULTS_AFTER_LEADSTATUS. -/
def afterDefault : AfterCol → String
  | .contactedOn => ""
  | .promosDate => ""
  | .promos => "No"
  | .nextYearDate => ""
  | .nextYear => "No"
  | .noContact => "No"
  | .eligible => "Yes"

/-- DATE_KEYS of `apply_supabase_pending_updates`: the two Supabase fields
whose values are reformatted via `_fmt_mmddyyyy` on write. -/
def isDateKey : AfterCol → Bool
  | .promosDate => true
  | .nextYearDate => true
  | _ => false

/-- The seven AFTER_LEADSTATUS cells of one row. -/
structure AfterCells where
  contactedOn : String
  promosDate : String
  promos : String
  nextYearDate : String
  nextYear : String
  noContact : String
  eligible : String
deriving DecidableEq, Repr

def AfterCells.get (x : AfterCells) : AfterCol → String
  | .contactedOn => x.contactedOn
  | .promosDate => x.promosDate
  | .promos => x.promos
  | .nextYearDate => x.nextYearDate
  | .nextYear => x.nextYear
  | .noContact => x.noContact
  | .eligible => x.eligible

def AfterCells.set (x : AfterCells) (c : AfterCol) (v : String) : AfterCells :=
  match c with
  | .contactedOn => { x with contactedOn := v }
  | .promosDate => { x with promosDate := v }
  | .promos => { x with promos := v }
  | .nextYearDate => { x with nextYearDate := v }
  | .nextYear => { x with nextYear := v }
  | .noContact => { x with noContact := v }
  | .eligible => { x with eligible := v }

def AfterCells.build (f : AfterCol → String) : AfterCells :=
  { contactedOn := f .contactedOn, promosDate := f .promosDate, promos := f .promos,
    nextYearDate := f .nextYearDate, nextYear := f .nextYear, noContact := f .noContact,
    eligible := f .eligible }

/-- One row of the leads working DataFrame, restricted to the columns the
verified stages read or write: the Id and Email cells, the seven
AFTER_LEADSTATUS cells, and the three Google Earth overlay cells.  All other
columns are pass-through and never touched by these stages. -/
structure LeadsRow where
  idCell : String
  emailCell : String
  after : AfterCells
  fence : String
  pic : String
  chk : String
deriving DecidableEq, Repr

/-- The leads working DataFrame: column-presence flags plus rows.  A `false`
flag means the named column is absent from the file (its per-row field is
then meaningless and treated as absent by the stage embeddings). -/
structure LeadsDF where
  hasIdCol : Bool
  hasEmailCol : Bool
  hasAfter : AfterCol → Bool
  hasFenceCol : Bool
  hasPicCol : Bool
  hasChkCol : Bool
  rows : List LeadsRow

/-- One row of the previous-Snapshot DataFrame, restricted to Id plus the
AFTER_LEADSTATUS columns used by `apply_after_leadstatus_rules`. -/
structure PrevRow where
  id : String
  cells : AfterCells
deriving DecidableEq, Repr

/-- The previous-Snapshot DataFrame (its Id column is always loaded by
`load_previous_file_safe`; the tracked columns may individually be absent). -/
structure PrevDF where
  hasCol : AfterCol → Bool
  rows : List PrevRow

/-- First loop of `apply_after_leadstatus_rules` (and the shared semantics of
`insert_columns` for an existing column), per cell: a missing column is
created filled with the default; in an existing column a blank cell receives
the default when the default is non-empty. -/
def step1Cell (has : Bool) (dflt v : String) : String :=
  if has then (if pyStrip v = "" ∧ dflt ≠ "" then dflt else v) else dflt

/-- First loop of `apply_after_leadstatus_rules` applied to one row. -/
def step1Row (has : AfterCol → Bool) (r : LeadsRow) : LeadsRow :=
  { r with after := AfterCells.build (fun c => step1Cell (has c) (afterDefault c) (r.after.get c)) }

/-- `prev_is_blank` of `apply_after_leadstatus_rules`: the merged previous
value, coerced by `astype(str)`, is blank or the NaN rendering "nan". -/
def prevBlank (v : String) : Bool :=
  pyStrip v = "" ∨ pyLower v = "nan"

/-- The previous value merged onto a current row for one column:
`previous.drop_duplicates(subset=["Id"], keep="first")` left-merged on Id.  A
missing match surfaces as NaN, i.e. "nan" after `astype(str)`. -/
def prevValueFor (p : PrevDF) (c : AfterCol) (idv : String) : String :=
  match p.rows.find? (fun r => r.id = idv) with
  | some r => r.cells.get c
  | none => "nan"

/-- `take_prev` mask of `apply_after_leadstatus_rules` for one cell: the
column exists in the previous file, the previous value is non-blank and
differs from the column default, and the current cell equals the default. -/
def takePrevB (p : PrevDF) (c : AfterCol) (idv cur : String) : Bool :=
  p.hasCol c ∧ ¬ prevBlank (prevValueFor p c idv) ∧
    prevValueFor p c idv ≠ afterDefault c ∧ cur = afterDefault c

/-- Enrichment of one cell in the second loop of
`apply_after_leadstatus_rules`. -/
def enrichCellAfter (p : PrevDF) (c : AfterCol) (idv cur : String) : String :=
  if takePrevB p c idv cur then prevValueFor p c idv else cur

/-- Enrichment of one whole row in the second loop of
`apply_after_leadstatus_rules`. -/
def enrichRowAfter (p : PrevDF) (r : LeadsRow) : LeadsRow :=
  { r with after := AfterCells.build (fun c => enrichCellAfter p c r.idCell (r.after.get c)) }

/-- `apply_after_leadstatus_rules` of hubspot_leads_file.py: ensure the seven
tracked columns exist with defaults, then — when a previous Snapshot with at
least one row is supplied and the current file has an Id column — back-fill
defaulted cells from the previous Snapshot under the `take_prev` guard,
returning the DataFrame and the replacement count. -/
def applyAfterLeadstatusRules (df : LeadsDF) (prev : Option PrevDF) : LeadsDF × Nat :=
  let rows1 := df.rows.map (step1Row df.hasAfter)
  let df1 : LeadsDF := { df with hasAfter := fun _ => true, rows := rows1 }
  match prev with
  | none => (df1, 0)
  | some p =>
      if p.rows.isEmpty ∨ df.hasIdCol = false then (df1, 0)
      else
        let rows2 := rows1.map (enrichRowAfter p)
        let cnt := (rows1.map (fun r =>
          allAfterCols.countP (fun c => takePrevB p c r.idCell (r.after.get c)))).sum
        ({ df1 with rows := rows2 }, cnt)

/-! ### apply_supabase_pending_updates -/

/-- The optional tracked-field payload of one pending update (a `none`
covers both an absent key and an explicit null — the source skips both). -/
structure UpdFields where
  contactedOn : Option String
  promosDate : Option String
  promos : Option String
  nextYearDate : Option String
  nextYear : Option String
  noContact : Option String
  eligible : Option String
deriving DecidableEq, Repr

def UpdFields.get (x : UpdFields) : AfterCol → Option String
  | .contactedOn => x.contactedOn
  | .promosDate => x.promosDate
  | .promos => x.promos
  | .nextYearDate => x.nextYearDate
  | .nextYear => x.nextYear
  | .noContact => x.noContact
  | .eligible => x.eligible

/-- One Pending Remote Update row fetched from Supabase, post `str()`
coercion of the scalar fields (`none` = absent or null). -/
structure Update where
  id : Option String
  lead : Option String
  email : Option String
  fields : UpdFields
deriving DecidableEq, Repr

/-- The empty payload (handy for examples). -/
def noFields : UpdFields :=
  { contactedOn := none, promosDate := none, promos := none, nextYearDate := none,
    nextYear := none, noContact := none, eligible := none }

/-- Index of the last element satisfying the predicate — dict-insertion
semantics, where a later binding overwrites an earlier one. -/
def lastIdxWith (p : α → Bool) : List α → Option Nat
  | [] => none
  | x :: xs =>
      match lastIdxWith p xs with
      | some i => some (i + 1)
      | none => if p x then some 0 else none

/-- The integer key a row contributes to `id_int_pos_map` (rows whose
stripped Id is empty or "nan" contribute nothing; rows whose comma-stripped
Id fails `int()` go to the string map instead). -/
def rowIntKey (r : LeadsRow) : Option Int :=
  let s := pyStrip r.idCell
  if s = "" ∨ pyLower s = "nan" then none
  else parseIntOpt (stripCommas s)

/-- The string key a row contributes to `id_str_pos_map`. -/
def rowStrKey (r : LeadsRow) : Option String :=
  let s := pyStrip r.idCell
  if s = "" ∨ pyLower s = "nan" then none
  else if (parseIntOpt (stripCommas s)).isSome then none
  else some (pyLower s)

/-- The key a row contributes to `email_pos_map`. -/
def rowEmailKey (r : LeadsRow) : Option String :=
  let em := pyLower (pyStrip r.emailCell)
  if em = "" ∨ em = "nan" then none
  else some em

/-- Lookup in `id_int_pos_map` (built only when the Id column exists; a
dict, so the last row with a key wins). -/
def idIntLookup (df : LeadsDF) (n : Int) : Option Nat :=
  if df.hasIdCol then lastIdxWith (fun r => rowIntKey r = some n) df.rows else none

/-- Lookup in `id_str_pos_map`. -/
def idStrLookup (df : LeadsDF) (k : String) : Option Nat :=
  if df.hasIdCol then lastIdxWith (fun r => rowStrKey r = some k) df.rows else none

/-- Lookup in `email_pos_map`. -/
def emailLookup (df : LeadsDF) (k : String) : Option Nat :=
  if df.hasEmailCol then lastIdxWith (fun r => rowEmailKey r = some k) df.rows else none

/-- Identifier-based match of one update: the `lead` value, stripped; if it
parses as an integer, the integer map decides, otherwise the lowercased
string map decides. -/
def idMatchOf (df : LeadsDF) (u : Update) : Option Nat :=
  match u.lead with
  | none => none
  | some lv =>
      let s := pyStrip lv
      if s = "" then none
      else
        match parseIntOpt (stripCommas s) with
        | some n => idIntLookup df n
        | none => idStrLookup df (pyLower s)

/-- Email-based fallback match of one update. -/
def emailMatchOf (df : LeadsDF) (u : Update) : Option Nat :=
  let ev := pyLower (pyStrip ((u.email).getD ""))
  if ev = "" then none else emailLookup df ev

/-- The matching policy of `apply_supabase_pending_updates`: identifier
first, email fallback only when the identifier match yields nothing. -/
def matchUpdate (df : LeadsDF) (u : Update) : Option Nat :=
  match idMatchOf df u with
  | some p => some p
  | none => emailMatchOf df u

/-- Replace the element at one index (the `out.iat[pos, ...]` writes). -/
def listModify (xs : List α) (i : Nat) (f : α → α) : List α :=
  match xs, i with
  | [], _ => []
  | x :: t, 0 => f x :: t
  | x :: t, n + 1 => x :: listModify t n f

/-- The per-field writes of one matched update applied to its row, in
SUPABASE_TO_FILE_COLS order: a present, non-null payload value is written,
reformatted through `_fmt_mmddyyyy` for the two DATE_KEYS. -/
def applyUpdToRow (u : Update) (r : LeadsRow) : LeadsRow :=
  allAfterCols.foldl
    (fun r c =>
      match u.fields.get c with
      | none => r
      | some v => { r with after := r.after.set c (if isDateKey c then fmtMmddyyyy v else v) })
    r

/-- `cells_written` contribution of one matched update. -/
def cellsWrittenOf (u : Update) : Nat :=
  allAfterCols.countP (fun c => (u.fields.get c).isSome)

/-- Accumulator of the update loop. -/
structure MergeAcc where
  rows : List LeadsRow
  matched : Nat
  unmatched : Nat
  cells : Nat
  ids : List String

/-- One iteration of the update loop of `apply_supabase_pending_updates`:
an unmatched update only bumps `unmatched`; a matched one rewrites its row,
bumps `matched` and `cells_written`, and appends the update's id to the
acknowledgment list when that id is non-null. -/
def applyOneUpdate (df : LeadsDF) (acc : MergeAcc) (u : Update) : MergeAcc :=
  match matchUpdate df u with
  | none => { acc with unmatched := acc.unmatched + 1 }
  | some pos =>
      { rows := listModify acc.rows pos (applyUpdToRow u)
        matched := acc.matched + 1
        unmatched := acc.unmatched
        cells := acc.cells + cellsWrittenOf u
        ids := acc.ids ++ (match u.id with | some s => [s] | none => []) }

/-- The stats dict of `apply_supabase_pending_updates`. -/
structure SbStats where
  pending : Nat
  matched : Nat
  cellsWritten : Nat
  unmatched : Nat
deriving DecidableEq, Repr

def zeroSbStats : SbStats :=
  { pending := 0, matched := 0, cellsWritten := 0, unmatched := 0 }

/-- `apply_supabase_pending_updates` of hubspot_leads_file.py, with the
outcome of `_fetch_pending_updates_from_supabase` passed in (`Except.error`
stands for the `(data=[], err)` outcome after credentials are missing, the
HTTP retries are exhausted, or the call times out).  On a fetch error the
function logs, leaves the DataFrame untouched, and returns zero stats and no
processed ids — there is no error channel in its return value. -/
def applySupabasePendingUpdates (df : LeadsDF) (fetch : Except String (List Update)) :
    LeadsDF × SbStats × List String :=
  match fetch with
  | .error _ => (df, zeroSbStats, [])
  | .ok updates =>
      let fin := updates.foldl (applyOneUpdate df) ⟨df.rows, 0, 0, 0, []⟩
      ({ df with rows := fin.rows },
       { pending := updates.length, matched := fin.matched,
         cellsWritten := fin.cells, unmatched := fin.unmatched },
       fin.ids)

/-! ### Google Earth overlay -/

/-- One normalized row of the GE "latest" overlay source (output of the row
stage of `_load_google_earth_latest_df`). -/
structure GELatestRow where
  id : String
  fence : String
  pic : String
  chk : String
deriving DecidableEq, Repr

/-- The row-normalization stage of `_load_google_earth_latest_df` (sheet
scanning over the raw bytes sits outside the embedding): `_norm_id` on Id,
drop empty Ids, deduplicate keep-last, then normalize the three overlay
columns. -/
def geLoaderNormalizeRows (rows : List GERawRow) : List GELatestRow :=
  let r1 := rows.map (fun r => { r with id := normId r.id })
  let r2 := r1.filter (fun r => r.id ≠ "")
  let r3 := keepLastWins (fun r => r.id) r2
  r3.map (fun r =>
    { id := r.id, fence := normalizeYesNoGe r.fence,
      pic := parseToMMDDYYYYGe r.pic, chk := parseToMMDDYYYYGe r.chk })

/-- Outcome of `_load_google_earth_latest_df`: an error string (storage
error, unreadable workbook, or no sheet carrying the four required columns),
`none` for a missing object (404), or the normalized overlay rows. -/
abbrev GELoad := Except String (Option (List GELatestRow))

/-- `out_idx` of `overlay_google_earth_latest`: normalized-Id to position,
last writer wins, empty keys excluded. -/
def outIdxLookup (rows : List LeadsRow) (key : String) : Option Nat :=
  if key = "" then none else lastIdxWith (fun r => normId r.idCell = key) rows

/-- The conditional write of the overlay fence flag onto a current cell:
written only when the (stripped) overlay value is "Yes" or "No" and differs
from the (stripped) current value. -/
def geOverlayFlagCell (src cur : String) : String :=
  let hv := pyStrip src
  if (hv = "Yes" ∨ hv = "No") ∧ pyStrip cur ≠ hv then hv else cur

/-- The conditional write of an overlay date cell onto a current cell:
written only when the (stripped) overlay value is non-blank and differs
from the (stripped) current value. -/
def geOverlayDateCell (src cur : String) : String :=
  let pv := pyStrip src
  if pv ≠ "" ∧ pyStrip cur ≠ pv then pv else cur

/-- The three conditional field writes of one overlay row applied to one
matched leads row (the source performs them as three `iat` writes into
distinct columns of the same row). -/
def applyGeFields (g : GELatestRow) (r : LeadsRow) : LeadsRow :=
  { r with fence := geOverlayFlagCell g.fence r.fence,
           pic := geOverlayDateCell g.pic r.pic,
           chk := geOverlayDateCell g.chk r.chk }

/-- One iteration of the overlay loop: skip rows with an empty normalized
Id or no position in `out_idx`, otherwise apply the conditional writes. -/
def applyGeRowAt (idx : String → Option Nat) (rows : List LeadsRow) (g : GELatestRow) :
    List LeadsRow :=
  let rid := normId g.id
  if rid = "" then rows
  else
    match idx rid with
    | none => rows
    | some pos => listModify rows pos (applyGeFields g)

/-- `overlay_google_earth_latest` of hubspot_leads_file.py: a loader error
or a missing/empty overlay source returns the input unchanged; otherwise the
three overlay columns are ensured to exist and each overlay row is applied
to the (last) record sharing its normalized identifier. -/
def overlayGoogleEarthLatest (df : LeadsDF) (load : GELoad) : LeadsDF :=
  match load with
  | .error _ => df
  | .ok none => df
  | .ok (some ge) =>
      if ge.isEmpty ∨ df.hasIdCol = false then df
      else
        let rows0 := df.rows.map (fun r =>
          { r with fence := if df.hasFenceCol then r.fence else ""
                   pic := if df.hasPicCol then r.pic else ""
                   chk := if df.hasChkCol then r.chk else "" })
        let idx := outIdxLookup df.rows
        { df with hasFenceCol := true, hasPicCol := true, hasChkCol := true,
                  rows := ge.foldl (applyGeRowAt idx) rows0 }

/-- Steps 6 and 7 of the processing pipeline in `show_hubspot_file_creator`:
the Supabase update merge followed unconditionally by the Google Earth
overlay (the UI advances to step 7 whatever the merge's fetch outcome was). -/
def pipelineMergeAndOverlay (df : LeadsDF) (fetch : Except String (List Update))
    (ge : GELoad) : LeadsDF :=
  overlayGoogleEarthLatest (applySupabasePendingUpdates df fetch).1 ge

/-! ## Concrete inputs used by the example theorems -/

/-- The seven AFTER_LEADSTATUS cells all at their defaults. -/
def afterDefaults : AfterCells :=
  { contactedOn := "", promosDate := "", promos := "No", nextYearDate := "",
    nextYear := "No", noContact := "No", eligible := "Yes" }

/-- A leads row for examples: identifier 42, an explicit (non-default)
Asked For No Contact value. -/
def c1row : LeadsRow :=
  { idCell := "42", emailCell := "", after := { afterDefaults with noContact := "Maybe" },
    fence := "", pic := "", chk := "" }

def c1df : LeadsDF :=
  { hasIdCol := true, hasEmailCol := true, hasAfter := fun _ => true,
    hasFenceCol := true, hasPicCol := true, hasChkCol := true, rows := [c1row] }

/-- A previous Snapshot carrying Asked For No Contact = "Yes" for id 42. -/
def c1prev : PrevDF :=
  { hasCol := fun _ => true, rows := [⟨"42", { afterDefaults with noContact := "Yes" }⟩] }

/-- Current DataFrame for the duplicate-previous-rows example: one row,
id 42, every tracked cell at its default. -/
def c4cur : LeadsDF :=
  { hasIdCol := true, hasEmailCol := true, hasAfter := fun _ => true,
    hasFenceCol := true, hasPicCol := true, hasChkCol := true,
    rows := [{ idCell := "42", emailCell := "", after := afterDefaults,
               fence := "", pic := "", chk := "" }] }

/-- Previous Snapshot with two rows sharing identifier 42 whose
Asked For No Contact values differ: row A ("Yes") precedes row B ("Si"). -/
def c4prev : PrevDF :=
  { hasCol := fun _ => true,
    rows := [⟨"42", { afterDefaults with noContact := "Yes" }⟩,
             ⟨"42", { afterDefaults with noContact := "Si" }⟩] }

/-- A two-row leads DataFrame for the update-merger examples. -/
def c2df : LeadsDF :=
  { hasIdCol := true, hasEmailCol := true, hasAfter := fun _ => true,
    hasFenceCol := true, hasPicCol := true, hasChkCol := true,
    rows := [{ idCell := "1024", emailCell := "a@x.com", after := afterDefaults,
               fence := "", pic := "", chk := "" },
             { idCell := "7", emailCell := "b@x.com", after := afterDefaults,
               fence := "", pic := "", chk := "" }] }

/-- A pending update matching id 1024 through its comma-formatted lead. -/
def c2upd : Update :=
  { id := some "u1", lead := some "1,024", email := none,
    fields := { noFields with noContact := some "Yes" } }

/-- An update with no lead and an email matching the second row. -/
def c10updEmail : Update :=
  { id := none, lead := none, email := some "B@X.com",
    fields := { noFields with promos := some "Yes" } }

/-- An update matching nothing. -/
def c10updMiss : Update :=
  { id := some "u3", lead := some "555", email := some "zz@x.com",
    fields := { noFields with promos := some "Yes" } }

def c10upds : List Update := [c2upd, c10updEmail, c10updMiss]

/-- Overlay source row for an identifier absent from the main file. -/
def c7ge : List GELatestRow := [⟨"555", "Yes", "01/01/2024", ""⟩]

/-- A leads DataFrame containing identifier 9999 only. -/
def c7df : LeadsDF :=
  { hasIdCol := true, hasEmailCol := true, hasAfter := fun _ => true,
    hasFenceCol := true, hasPicCol := true, hasChkCol := true,
    rows := [{ idCell := "9999", emailCell := "", after := afterDefaults,
               fence := "No", pic := "05/05/2020", chk := "" }] }

/-! ## Helper lemmas -/

@[simp]
theorem AfterCells.get_build (f : AfterCol → String) (c : AfterCol) :
    (AfterCells.build f).get c = f c := by
  cases c <;> rfl

theorem listModify_getElem?_ne {xs : List α} {i j : Nat} (f : α → α) (h : i ≠ j) :
    (listModify xs i f)[j]? = xs[j]? := by
  induction xs generalizing i j with
  | nil => simp [listModify]
  | cons x t ih =>
      cases i with
      | zero =>
          cases j with
          | zero => exact absurd rfl h
          | succ m => simp [listModify]
      | succ n =>
          cases j with
          | zero => simp [listModify]
          | succ m =>
              simp only [listModify, List.getElem?_cons_succ]
              exact ih (fun hnm => h (by simp [hnm]))

theorem listModify_getElem?_eq {xs : List α} {i : Nat} (f : α → α) :
    (listModify xs i f)[i]? = (xs[i]?).map f := by
  induction xs generalizing i with
  | nil => simp [listModify]
  | cons x t ih =>
      cases i with
      | zero => simp [listModify]
      | succ n => simpa [listModify] using ih

theorem lastIdxWith_spec {p : α → Bool} {xs : List α} {i : Nat}
    (h : lastIdxWith p xs = some i) : ∃ x, xs[i]? = some x ∧ p x = true := by
  induction xs generalizing i with
  | nil => simp [lastIdxWith] at h
  | cons x t ih =>
      simp only [lastIdxWith] at h
      cases hr : lastIdxWith p t with
      | some k =>
          rw [hr] at h
          obtain ⟨y, hy, hpy⟩ := ih hr
          cases h
          exact ⟨y, by simpa using hy, hpy⟩
      | none =>
          rw [hr] at h
          by_cases hp : p x = true
          · simp [hp] at h
            cases h
            exact ⟨x, by simp, hp⟩
          · simp [hp] at h

theorem find?_eq_head?_filter (p : α → Bool) (l : List α) :
    l.find? p = (l.filter p).head? := by
  induction l with
  | nil => rfl
  | cons x t ih =>
      by_cases hp : p x = true
      · rw [List.find?_cons_of_pos _ hp, List.filter_cons_of_pos hp]
        rfl
      · rw [List.find?_cons_of_neg _ (by simp [hp]), List.filter_cons_of_neg (by simp [hp]), ih]

theorem length_keepLastWins_le (key : α → String) (xs : List α) :
    (keepLastWins key xs).length ≤ xs.length := by
  induction xs with
  | nil => simp [keepLastWins]
  | cons x t ih =>
      simp only [keepLastWins]
      by_cases hc : t.any (fun y => key y = key x) = true
      · simp [hc]
        omega
      · simp only [Bool.not_eq_true] at hc
        simp [hc]
        omega

theorem keepLastWins_eq_self_of_nodup {key : α → String} {xs : List α}
    (h : (xs.map key).Nodup) : keepLastWins key xs = xs := by
  induction xs with
  | nil => rfl
  | cons x t ih =>
      simp only [List.map_cons, List.nodup_cons] at h
      have hx : t.any (fun y => key y = key x) = false := by
        rw [Bool.eq_false_iff]
        intro hc
        simp only [List.any_eq_true, decide_eq_true_eq] at hc
        obtain ⟨y, hy, hky⟩ := hc
        exact h.1 (hky ▸ List.mem_map_of_mem key hy)
      simp [keepLastWins, hx, ih h.2]

theorem keepLastWins_cons_of_dup {key : α → String} {x : α} {t : List α}
    (h : (t.any fun y => key y = key x) = true) :
    keepLastWins key (x :: t) = keepLastWins key t := by
  simp [keepLastWins, h]

theorem keepLastWins_cons_of_nodup {key : α → String} {x : α} {t : List α}
    (h : (t.any fun y => key y = key x) = false) :
    keepLastWins key (x :: t) = x :: keepLastWins key t := by
  simp [keepLastWins, h]

theorem find?_keepLastWins (key : α → String) (xs : List α) (k : String) :
    (keepLastWins key xs).find? (fun r => key r = k) =
      (xs.filter (fun r => key r = k)).getLast? := by
  induction xs with
  | nil => rfl
  | cons x t ih =>
      by_cases hk : key x = k
      · rw [List.filter_cons_of_pos (by simpa using hk)]
        by_cases hc : (t.any fun y => key y = key x) = true
        · rw [keepLastWins_cons_of_dup hc, ih]
          have hne : t.filter (fun r => key r = k) ≠ [] := by
            have hex : ∃ y ∈ t, key y = key x := by simpa using hc
            obtain ⟨y, hy, hky⟩ := hex
            have hmem : y ∈ t.filter (fun r => key r = k) :=
              List.mem_filter.mpr ⟨hy, by simp [hky, hk]⟩
            intro hnil
            rw [hnil] at hmem
            simp at hmem
          cases hft : t.filter (fun r => key r = k) with
          | nil => exact absurd hft hne
          | cons a b => simp [hft, List.getLast?_cons_cons]
        · have hcf : (t.any fun y => key y = key x) = false := by simpa using hc
          rw [keepLastWins_cons_of_nodup hcf,
              List.find?_cons_of_pos _ (by simpa using hk)]
          have hft : t.filter (fun r => key r = k) = [] := by
            rw [List.filter_eq_nil_iff]
            intro y hy
            simp only [decide_eq_true_eq]
            intro hky
            have hany : (t.any fun y => key y = key x) = true := by
              simp only [List.any_eq_true, decide_eq_true_eq]
              exact ⟨y, hy, by rw [hky, hk]⟩
            rw [hany] at hcf
            cases hcf
          rw [hft]
          rfl
      · rw [List.filter_cons_of_neg (by simpa using hk)]
        by_cases hc : (t.any fun y => key y = key x) = true
        · rw [keepLastWins_cons_of_dup hc]
          exact ih
        · have hcf : (t.any fun y => key y = key x) = false := by simpa using hc
          rw [keepLastWins_cons_of_nodup hcf,
              List.find?_cons_of_neg _ (by simpa using hk)]
          exact ih

theorem dropWhile_dropWhile (p : α → Bool) (l : List α) :
    (l.dropWhile p).dropWhile p = l.dropWhile p := by
  induction l with
  | nil => rfl
  | cons x t ih =>
      by_cases hp : p x = true
      · simp [List.dropWhile_cons, hp, ih]
      · simp only [Bool.not_eq_true] at hp
        simp [List.dropWhile_cons, hp]

theorem head?_dropWhile_not {p : α → Bool} {l : List α} {x : α}
    (h : (l.dropWhile p).head? = some x) : p x = false := by
  induction l with
  | nil => simp [List.dropWhile] at h
  | cons y t ih =>
      by_cases hp : p y = true
      · rw [List.dropWhile_cons_of_pos hp] at h
        exact ih h
      · simp only [Bool.not_eq_true] at hp
        rw [List.dropWhile_cons_of_neg (by simp [hp])] at h
        simp at h
        rw [← h]
        exact hp

theorem getLast?_dropWhile {p : α → Bool} {l : List α}
    (h : l.dropWhile p ≠ []) : (l.dropWhile p).getLast? = l.getLast? := by
  induction l with
  | nil => simp [List.dropWhile] at h
  | cons y t ih =>
      by_cases hp : p y = true
      · rw [List.dropWhile_cons_of_pos hp] at h ⊢
        rw [ih h]
        have ht : t ≠ [] := by
          intro hnil
          rw [hnil] at h
          simp [List.dropWhile] at h
        cases t with
        | nil => exact absurd rfl ht
        | cons a b => simp [List.getLast?_cons_cons]
      · simp only [Bool.not_eq_true] at hp
        rw [List.dropWhile_cons_of_neg (by simp [hp])]

theorem dropWhile_eq_self_of_head {p : α → Bool} {l : List α}
    (h : ∀ x, l.head? = some x → p x = false) : l.dropWhile p = l := by
  cases l with
  | nil => rfl
  | cons x t =>
      have := h x rfl
      rw [List.dropWhile_cons_of_neg (by simp [this])]

theorem pyStripList_idem (l : List Char) : pyStripList (pyStripList l) = pyStripList l := by
  unfold pyStripList
  set A := l.dropWhile Char.isWhitespace with hA
  set B := A.reverse.dropWhile Char.isWhitespace with hB
  have h1 : B.reverse.dropWhile Char.isWhitespace = B.reverse := by
    apply dropWhile_eq_self_of_head
    intro x hx
    rw [List.head?_reverse] at hx
    by_cases hBe : B = []
    · rw [hBe] at hx
      simp at hx
    · rw [hB, getLast?_dropWhile (hB ▸ hBe)] at hx
      rw [List.getLast?_reverse] at hx
      exact head?_dropWhile_not (hA ▸ hx)
  rw [h1, List.reverse_reverse, hB, dropWhile_dropWhile]

theorem pyStrip_idem (s : String) : pyStrip (pyStrip s) = pyStrip s := by
  simp [pyStrip, pyStripList_idem]

theorem length_filter_add_length_filter_not (p : α → Bool) (l : List α) :
    (l.filter p).length + (l.filter (fun x => ! p x)).length = l.length := by
  induction l with
  | nil => rfl
  | cons x t ih =>
      by_cases hp : p x = true
      · rw [List.filter_cons_of_pos hp, List.filter_cons_of_neg (by simp [hp])]
        simp only [List.length_cons]
        omega
      · simp only [Bool.not_eq_true] at hp
        rw [List.filter_cons_of_neg (by simp [hp]), List.filter_cons_of_pos (by simp [hp])]
        simp only [List.length_cons]
        omega

/-- Row-level characterization of `applyAfterLeadstatusRules`, no previous
Snapshot: only the default-filling first loop runs. -/
theorem applyAfter_getElem?_none (df : LeadsDF) (i : Nat) :
    (applyAfterLeadstatusRules df none).1.rows[i]? =
      (df.rows[i]?).map (step1Row df.hasAfter) := by
  simp [applyAfterLeadstatusRules, List.getElem?_map]

/-- Row-level characterization, degenerate previous Snapshot (no rows, or no
Id column in the current file): only the first loop runs. -/
theorem applyAfter_getElem?_degen (df : LeadsDF) (p : PrevDF) (i : Nat)
    (hd : p.rows.isEmpty = true ∨ df.hasIdCol = false) :
    (applyAfterLeadstatusRules df (some p)).1.rows[i]? =
      (df.rows[i]?).map (step1Row df.hasAfter) := by
  unfold applyAfterLeadstatusRules
  dsimp only
  rw [if_pos hd]
  simp [List.getElem?_map]

/-- Row-level characterization, main path: first loop then cell-wise
enrichment from the previous Snapshot. -/
theorem applyAfter_getElem?_main (df : LeadsDF) (p : PrevDF) (i : Nat)
    (hd : ¬ (p.rows.isEmpty = true ∨ df.hasIdCol = false)) :
    (applyAfterLeadstatusRules df (some p)).1.rows[i]? =
      (df.rows[i]?).map (fun r => enrichRowAfter p (step1Row df.hasAfter r)) := by
  unfold applyAfterLeadstatusRules
  dsimp only
  rw [if_neg hd]
  simp [List.getElem?_map, List.map_map]
  rfl

theorem step1Row_get (has : AfterCol → Bool) (r : LeadsRow) (c : AfterCol) :
    (step1Row has r).after.get c = step1Cell (has c) (afterDefault c) (r.after.get c) := by
  simp [step1Row]

theorem step1Row_idCell (has : AfterCol → Bool) (r : LeadsRow) :
    (step1Row has r).idCell = r.idCell := rfl

theorem enrichRowAfter_get (p : PrevDF) (r : LeadsRow) (c : AfterCol) :
    (enrichRowAfter p r).after.get c = enrichCellAfter p c r.idCell (r.after.get c) := by
  simp [enrichRowAfter]

theorem takePrevB_iff (p : PrevDF) (c : AfterCol) (idv cur : String) :
    takePrevB p c idv cur = true ↔
      (p.hasCol c = true ∧ prevBlank (prevValueFor p c idv) = false ∧
       prevValueFor p c idv ≠ afterDefault c ∧ cur = afterDefault c) := by
  simp [takePrevB, Bool.not_eq_true]

theorem step1Cell_of_nonblank {has : Bool} {dflt v : String}
    (hhas : has = true) (hnb : pyStrip v ≠ "") :
    step1Cell has dflt v = v := by
  simp [step1Cell, hhas, hnb]

/-- C1.  For the post-group (AFTER_LEADSTATUS) tracked columns,
`apply_after_leadstatus_rules` replaces a cell with the previous Snapshot's
value for the same identifier only if the previous value is non-blank, the
previous value differs from the column's default, and the (default-filled)
current value equals the column's default; consequently a current value that
is neither blank nor equal to the column's default is never overwritten. -/
theorem c1_enrichment_guard (df : LeadsDF) (prev : Option PrevDF) (i : Nat)
    (r r' : LeadsRow) (c : AfterCol)
    (hr : df.rows[i]? = some r)
    (hr' : (applyAfterLeadstatusRules df prev).1.rows[i]? = some r') :
    ((df.hasAfter c = true → pyStrip (r.after.get c) ≠ "" → r.after.get c ≠ afterDefault c →
        r'.after.get c = r.after.get c)
     ∧ (∀ p, prev = some p →
          r'.after.get c ≠ step1Cell (df.hasAfter c) (afterDefault c) (r.after.get c) →
          p.hasCol c = true ∧ prevBlank (prevValueFor p c r.idCell) = false ∧
          prevValueFor p c r.idCell ≠ afterDefault c ∧
          step1Cell (df.hasAfter c) (afterDefault c) (r.after.get c) = afterDefault c ∧
          r'.after.get c = prevValueFor p c r.idCell)) := by
  cases prev with
  | none =>
      rw [applyAfter_getElem?_none, hr] at hr'
      have hro : r' = step1Row df.hasAfter r := by
        simpa using hr'.symm
      constructor
      · intro hhas hnb _
        rw [hro, step1Row_get, step1Cell_of_nonblank hhas hnb]
      · intro q hq
        exact absurd hq (by simp)
  | some p =>
      by_cases hd : p.rows.isEmpty = true ∨ df.hasIdCol = false
      · rw [applyAfter_getElem?_degen _ _ _ hd, hr] at hr'
        have hro : r' = step1Row df.hasAfter r := by
          simpa using hr'.symm
        constructor
        · intro hhas hnb _
          rw [hro, step1Row_get, step1Cell_of_nonblank hhas hnb]
        · intro q hq hne
          exact absurd (hro ▸ step1Row_get df.hasAfter r c) hne
      · rw [applyAfter_getElem?_main _ _ _ hd, hr] at hr'
        have hro : r' = enrichRowAfter p (step1Row df.hasAfter r) := by
          simpa using hr'.symm
        have hget : r'.after.get c =
            enrichCellAfter p c r.idCell (step1Cell (df.hasAfter c) (afterDefault c) (r.after.get c)) := by
          rw [hro, enrichRowAfter_get, step1Row_idCell, step1Row_get]
        constructor
        · intro hhas hnb hnd
          rw [hget, step1Cell_of_nonblank hhas hnb, enrichCellAfter, if_neg]
          intro htp
          exact hnd ((takePrevB_iff p c r.idCell (r.after.get c)).mp htp).2.2.2
        · intro q hq hne
          have hpq : p = q := by
            injection hq
          subst hpq
          by_cases htp : takePrevB p c r.idCell
              (step1Cell (df.hasAfter c) (afterDefault c) (r.after.get c)) = true
          · obtain ⟨h1, h2, h3, h4⟩ := (takePrevB_iff _ _ _ _).mp htp
            refine ⟨h1, h2, h3, h4, ?_⟩
            rw [hget, enrichCellAfter, if_pos htp]
          · rw [hget, enrichCellAfter, if_neg htp] at hne
            exact absurd rfl hne

/-- Witness for C1: on a concrete row whose Asked For No Contact is the
explicit value "Maybe" (non-blank, not the default "No"), enrichment from a
previous Snapshot carrying "Yes" leaves the value intact. -/
theorem c1_enrichment_guard_witness :
    (applyAfterLeadstatusRules c1df (some c1prev)).1.rows[0]? = some c1row ∧
    c1row.after.get AfterCol.noContact = "Maybe" := by
  have h := (c1_enrichment_guard c1df (some c1prev) 0 c1row c1row AfterCol.noContact
      (by decide) (by decide)).1 (by decide) (by decide) (by decide)
  exact ⟨by decide, h.trans (by decide)⟩

/-- C2.  Each pending update is applied to at most one record: processing
one update leaves every row other than its matched position untouched, and
the match is identifier-first (integer-keyed and string-keyed maps over the
normalized Id column) with the lowercase-trimmed email fallback consulted
only when the identifier match yields nothing; the full merge is the fold of
this one-update step. -/
theorem c2_update_matching (df : LeadsDF) (acc : MergeAcc) (u : Update) (j : Nat) :
    ((matchUpdate df u ≠ some j → (applyOneUpdate df acc u).rows[j]? = acc.rows[j]?)
     ∧ (∀ pos, idMatchOf df u = some pos → matchUpdate df u = some pos)
     ∧ (idMatchOf df u = none → matchUpdate df u = emailMatchOf df u)
     ∧ (∀ updates, (applySupabasePendingUpdates df (Except.ok updates)).1.rows =
          (updates.foldl (applyOneUpdate df) ⟨df.rows, 0, 0, 0, []⟩).rows)) := by
  refine ⟨?_, ?_, ?_, ?_⟩
  · intro hne
    cases hm : matchUpdate df u with
    | none => simp [applyOneUpdate, hm]
    | some pos =>
        have hpj : pos ≠ j := fun h => hne (h ▸ hm)
        simp only [applyOneUpdate, hm]
        exact listModify_getElem?_ne _ hpj
  · intro pos hpos
    simp [matchUpdate, hpos]
  · intro hnone
    simp [matchUpdate, hnone]
  · intro updates
    rfl

/-- Witness for C2: the update for lead "1,024" matches row 0 of the example
DataFrame, so row 1 is untouched by its application. -/
theorem c2_update_matching_witness :
    (applyOneUpdate c2df ⟨c2df.rows, 0, 0, 0, []⟩ c2upd).rows[1]? = c2df.rows[1]? :=
  (c2_update_matching c2df ⟨c2df.rows, 0, 0, 0, []⟩ c2upd 1).1 (by decide)

/-- Loop invariant of the update fold: each update adds exactly one to
`matched + unmatched`, the acknowledgment list grows by at most one per
matched update, and every appended id comes from a matched update whose
payload id is non-null. -/
theorem mergeLoop_inv (df : LeadsDF) (us : List Update) : ∀ acc : MergeAcc,
    ((us.foldl (applyOneUpdate df) acc).matched + (us.foldl (applyOneUpdate df) acc).unmatched
        = acc.matched + acc.unmatched + us.length)
    ∧ ((us.foldl (applyOneUpdate df) acc).ids.length + acc.matched
        ≤ acc.ids.length + (us.foldl (applyOneUpdate df) acc).matched)
    ∧ (∀ s ∈ (us.foldl (applyOneUpdate df) acc).ids,
         s ∈ acc.ids ∨ ∃ u ∈ us, u.id = some s ∧ (matchUpdate df u).isSome = true) := by
  induction us with
  | nil =>
      intro acc
      exact ⟨by simp, by simp, fun s hs => Or.inl (by simpa using hs)⟩
  | cons u t ih =>
      intro acc
      obtain ⟨ih1, ih2, ih3⟩ := ih (applyOneUpdate df acc u)
      have hstep :
          ((applyOneUpdate df acc u).matched + (applyOneUpdate df acc u).unmatched
              = acc.matched + acc.unmatched + 1)
          ∧ ((applyOneUpdate df acc u).ids.length + acc.matched
              ≤ acc.ids.length + (applyOneUpdate df acc u).matched)
          ∧ (∀ s ∈ (applyOneUpdate df acc u).ids,
               s ∈ acc.ids ∨ (u.id = some s ∧ (matchUpdate df u).isSome = true)) := by
        cases hm : matchUpdate df u with
        | none =>
            refine ⟨by simp [applyOneUpdate, hm]; try omega, by simp [applyOneUpdate, hm], ?_⟩
            intro s hs
            exact Or.inl (by simpa [applyOneUpdate, hm] using hs)
        | some pos =>
            cases hid : u.id with
            | none =>
                refine ⟨by simp [applyOneUpdate, hm]; try omega,
                        by simp [applyOneUpdate, hm, hid]; try omega, ?_⟩
                intro s hs
                exact Or.inl (by simpa [applyOneUpdate, hm, hid] using hs)
            | some s0 =>
                refine ⟨by simp [applyOneUpdate, hm]; try omega,
                        by simp [applyOneUpdate, hm, hid]; try omega, ?_⟩
                intro s hs
                simp only [applyOneUpdate, hm, hid] at hs
                rcases List.mem_append.mp hs with h | h
                · exact Or.inl h
                · have hss : s = s0 := by simpa using h
                  exact Or.inr ⟨by simp [hid, hss], by simp [hm]⟩
      simp only [List.foldl_cons]
      refine ⟨?_, ?_, ?_⟩
      · rw [ih1, hstep.1]
        simp [List.length_cons]
        omega
      · have h1 := ih2
        have h2 := hstep.2.1
        omega
      · intro s hs
        rcases ih3 s hs with h | ⟨u', hu', hprop⟩
        · rcases hstep.2.2 s h with h' | ⟨h1, h2⟩
          · exact Or.inl h'
          · exact Or.inr ⟨u, List.mem_cons_self u t, h1, h2⟩
        · exact Or.inr ⟨u', List.mem_cons_of_mem u hu', hprop⟩

/-- C10.  In every successful run of the update merger each fetched update
is counted in exactly one of `matched_rows` / `unmatched` (so
`pending = matched_rows + unmatched`), and an update id enters
`processed_update_ids` only for a matched update with a non-null id — hence
the acknowledgment list is no longer than `matched_rows`, and a matched
update with a null id is applied but never acknowledged. -/
theorem c10_merge_accounting (df : LeadsDF) (updates : List Update) :
    ((applySupabasePendingUpdates df (Except.ok updates)).2.1.pending = updates.length)
    ∧ ((applySupabasePendingUpdates df (Except.ok updates)).2.1.pending
        = (applySupabasePendingUpdates df (Except.ok updates)).2.1.matched
          + (applySupabasePendingUpdates df (Except.ok updates)).2.1.unmatched)
    ∧ ((applySupabasePendingUpdates df (Except.ok updates)).2.2.length
        ≤ (applySupabasePendingUpdates df (Except.ok updates)).2.1.matched)
    ∧ (∀ s ∈ (applySupabasePendingUpdates df (Except.ok updates)).2.2,
         ∃ u ∈ updates, u.id = some s ∧ (matchUpdate df u).isSome = true) := by
  obtain ⟨h1, h2, h3⟩ := mergeLoop_inv df updates ⟨df.rows, 0, 0, 0, []⟩
  refine ⟨rfl, ?_, ?_, ?_⟩
  · simpa [applySupabasePendingUpdates] using h1.symm
  · simpa [applySupabasePendingUpdates] using h2
  · intro s hs
    have hs' : s ∈ (updates.foldl (applyOneUpdate df) ⟨df.rows, 0, 0, 0, []⟩).ids := hs
    rcases h3 s hs' with h | h
    · simp at h
    · exact h

/-- Witness for C10: three concrete updates (one id-matched, one
email-matched with a null payload id, one unmatched) — pending is 3, and
"u1" is acknowledged because its update matched with a non-null id. -/
theorem c10_merge_accounting_witness :
    ((applySupabasePendingUpdates c2df (Except.ok c10upds)).2.1.pending = 3)
    ∧ (∃ u ∈ c10upds, u.id = some "u1" ∧ (matchUpdate c2df u).isSome = true) := by
  have h := c10_merge_accounting c2df c10upds
  exact ⟨h.1.trans (by decide), h.2.2.2 "u1" (by decide)⟩

/-- C3.  The Baseline Differ assigns every identifier of the new Snapshot to
exactly one of the classes added / modified / unchanged, where modification
is field-tuple inequality over exactly (has_fence, last_picture,
last_checked). -/
theorem c3_diff_partition (newDf baseDf : List GENormRow) (i : String)
    (_hnd : (newDf.map (fun r => r.id)).Nodup)
    (hi : i ∈ newDf.map (fun r => r.id)) :
    ((i ∈ addedIds newDf baseDf ∧ i ∉ modifiedIds newDf baseDf ∧ i ∉ unchangedIds newDf baseDf)
     ∨ (i ∉ addedIds newDf baseDf ∧ i ∈ modifiedIds newDf baseDf ∧ i ∉ unchangedIds newDf baseDf)
     ∨ (i ∉ addedIds newDf baseDf ∧ i ∉ modifiedIds newDf baseDf ∧
        i ∈ unchangedIds newDf baseDf)) := by
  by_cases hb : baseDf.any (fun r => r.id = i) = true
  · by_cases ht : tupleAt newDf i = tupleAt baseDf i
    · refine Or.inr (Or.inr ⟨?_, ?_, ?_⟩)
      · simp [addedIds, List.mem_filter, hb]
        intro x _ _
        simpa using hb
      · simp [modifiedIds, commonIds, List.mem_filter, ht]
      · simp [unchangedIds, commonIds, List.mem_filter, hb, ht, hi]
    · refine Or.inr (Or.inl ⟨?_, ?_, ?_⟩)
      · simp [addedIds, List.mem_filter, hb]
        intro x _ _
        simpa using hb
      · simp [modifiedIds, commonIds, List.mem_filter, hb, ht, hi]
      · simp [unchangedIds, commonIds, List.mem_filter, ht]
  · have hbf : baseDf.any (fun r => r.id = i) = false := by
      simpa using hb
    refine Or.inl ⟨?_, ?_, ?_⟩
    · simp [addedIds, List.mem_filter, hbf, hi]
      simpa using hbf
    · simp [modifiedIds, commonIds, List.mem_filter, hbf]
    · simp [unchangedIds, commonIds, List.mem_filter, hbf]

/-- Witness for C3: with an empty baseline the sole new identifier is
classified added, and in neither of the other two classes. -/
theorem c3_diff_partition_witness :
    (("1" ∈ addedIds [⟨"1", "Yes", none, none⟩] [] ∧
      "1" ∉ modifiedIds [⟨"1", "Yes", none, none⟩] [] ∧
      "1" ∉ unchangedIds [⟨"1", "Yes", none, none⟩] [])
     ∨ ("1" ∉ addedIds [⟨"1", "Yes", none, none⟩] [] ∧
        "1" ∈ modifiedIds [⟨"1", "Yes", none, none⟩] [] ∧
        "1" ∉ unchangedIds [⟨"1", "Yes", none, none⟩] [])
     ∨ ("1" ∉ addedIds [⟨"1", "Yes", none, none⟩] [] ∧
        "1" ∉ modifiedIds [⟨"1", "Yes", none, none⟩] [] ∧
        "1" ∈ unchangedIds [⟨"1", "Yes", none, none⟩] [])) :=
  c3_diff_partition [⟨"1", "Yes", none, none⟩] [] "1" (by decide) (by decide)

theorem getLast?_map (f : α → β) (l : List α) :
    (l.map f).getLast? = (l.getLast?).map f := by
  induction l with
  | nil => rfl
  | cons x t ih =>
      cases t with
      | nil => rfl
      | cons a b => simpa [List.getLast?_cons_cons] using ih

/-- Counterexample for C4: the previous Snapshot used by
`apply_after_leadstatus_rules` is deduplicated keep-first, so with two
previous rows sharing identifier 42 the FIRST row's value ("Yes") is the one
enriched in, not the last row's ("Si"). -/
theorem c4_last_wins_counterexample :
    ((applyAfterLeadstatusRules c4cur (some c4prev)).1.rows.map
        (fun r => r.after.noContact)) = ["Yes"]
    ∧ (c4prev.rows.map (fun r => r.cells.noContact)) = ["Yes", "Si"]
    ∧ ("Yes" : String) ≠ "Si" := by
  refine ⟨by decide, by decide, by decide⟩

/-- C4 (amended).  Where a dataset itself is deduplicated — the baseline
differ's `_dedupe_last_wins` (and the GE-latest loader) — the record kept
for an identifier is the LAST raw row carrying it; but the previous
Snapshot consulted by the enrichment functions is deduplicated with
`keep="first"`, so the value merged in for an identifier is the FIRST
previous row carrying it. -/
theorem c4_last_wins_amended :
    (∀ (xs : List GERawRow) (k : String), k ≠ "" →
       (dedupeLastWins xs).find? (fun r => r.id = k) =
         ((xs.filter (fun r => pyStrip r.id = k)).getLast?).map
           (fun r => { r with id := pyStrip r.id }))
    ∧ (∀ (p : PrevDF) (c : AfterCol) (idv : String),
         prevValueFor p c idv =
           (((p.rows.filter (fun r => r.id = idv)).head?).map
             (fun r => r.cells.get c)).getD "nan") := by
  constructor
  · intro xs k hk
    unfold dedupeLastWins
    rw [find?_keepLastWins]
    have h1 : ((xs.map (fun r => { r with id := pyStrip r.id })).filter
          (fun r => r.id ≠ "")).filter (fun r => r.id = k) =
        (xs.map (fun r => { r with id := pyStrip r.id })).filter (fun r => r.id = k) := by
      rw [List.filter_filter]
      apply List.filter_congr
      intro r _
      by_cases hr : r.id = k
      · simp [hr, hk]
      · simp [hr]
    have h2 : (xs.map (fun r : GERawRow => { r with id := pyStrip r.id })).filter
          (fun r => r.id = k) =
        (xs.filter (fun r => pyStrip r.id = k)).map (fun r => { r with id := pyStrip r.id }) := by
      rw [List.filter_map]
      rfl
    rw [h1, h2, getLast?_map]
  · intro p c idv
    rw [prevValueFor, find?_eq_head?_filter]
    cases h : (p.rows.filter (fun r => r.id = idv)).head? with
    | none => rfl
    | some r => rfl

/-- Witness for C4 (amended): on two raw rows sharing id 42 the deduplicated
dataset keeps the second row's values. -/
theorem c4_last_wins_amended_witness :
    (dedupeLastWins [⟨"42", "a", "", ""⟩, ⟨"42", "b", "", ""⟩]).find?
        (fun r => r.id = "42") =
      ((([⟨"42", "a", "", ""⟩, ⟨"42", "b", "", ""⟩] : List GERawRow).filter
          (fun r => pyStrip r.id = "42")).getLast?).map
        (fun r => { r with id := pyStrip r.id }) :=
  c4_last_wins_amended.1 [⟨"42", "a", "", ""⟩, ⟨"42", "b", "", ""⟩] "42" (by decide)

/-- Counterexample for C5: in the baseline-differ normalizer's date path
(`_parse_us_date` / `_parse_excel_serial`) serial day 0 and serial day 60001
are NOT rejected — day 0 parses to 1899-12-30 and day 60001 to 2064-04-09,
because that path has no 1..60000 range check. -/
theorem c5_serial_bounds_counterexample :
    parseUsDate "0" = some ⟨1899, 12, 30⟩ ∧
    parseUsDate "60001" = some ⟨2064, 4, 9⟩ := by
  refine ⟨by decide, by decide⟩

/-- C5 (amended).  The 1..60000 serial-day bound is enforced only by the
leads-pipeline overlay parser `_parse_to_mmddyyyy_ge`, which rejects day 0
and day 60001 and accepts day 1 (1899-12-31) and day 60000 (2064-04-08);
the baseline-differ normalizer `_parse_us_date` accepts any in-calendar
serial, in particular day 0 (1899-12-30) and day 60001 (2064-04-09), while
also accepting day 1 and day 60000. -/
theorem c5_serial_bounds_amended :
    parseToMMDDYYYYGe "0" = "" ∧
    parseToMMDDYYYYGe "60001" = "" ∧
    parseToMMDDYYYYGe "1" = "12/31/1899" ∧
    parseToMMDDYYYYGe "60000" = "04/08/2064" ∧
    parseUsDate "1" = some ⟨1899, 12, 31⟩ ∧
    parseUsDate "60000" = some ⟨2064, 4, 8⟩ ∧
    parseUsDate "0" = some ⟨1899, 12, 30⟩ ∧
    parseUsDate "60001" = some ⟨2064, 4, 9⟩ := by
  refine ⟨by decide, by decide, by decide, by decide, by decide, by decide, by decide, by decide⟩

/-- Counterexample for C6: the baseline-differ normalizer
(`normalize_excel_bytes`) does not apply `_norm_id` to the Id column — it
only strips it — so the scenario row with Id "1,024" keeps identifier
"1,024" there, not "1024" (the fence flag and the serial date are
normalized as the claim says). -/
theorem c6_norm_scenario_counterexample :
    (normalizeExcelRows [⟨"1,024", "Y", "45292", ""⟩]).1 =
      [{ id := "1,024", hasFence := "Yes",
         lastPicture := some ⟨2024, 1, 1⟩, lastChecked := none }]
    ∧ ("1,024" : String) ≠ "1024" := by
  refine ⟨by decide, by decide⟩

/-- C6 (amended).  `_norm_id` maps null-like tokens to the empty string and
integer-valued numeric-looking values (thousand separators stripped,
trailing .0 dropped) to their canonical integer string; the pipeline that
composes it with the fence and serial-date normalizers is the GE-latest
loader, where the scenario row yields identifier "1024", fence "Yes" and
the date derived from serial 45292; the baseline-differ normalizer instead
keeps the stripped raw identifier "1,024" for the same row. -/
theorem c6_norm_scenario_amended :
    (∀ s, (pyStrip s = "" ∨ pyLower (pyStrip s) = "nan" ∨ pyLower (pyStrip s) = "none" ∨
           pyLower (pyStrip s) = "null") → normId s = "")
    ∧ (∀ (s : String) (n : Int),
         ¬ (pyStrip s = "" ∨ pyLower (pyStrip s) = "nan" ∨ pyLower (pyStrip s) = "none" ∨
            pyLower (pyStrip s) = "null") →
         parseDecimal (stripCommas (pyStrip s)) = some (n, true) →
         normId s = toString n)
    ∧ geLoaderNormalizeRows [⟨"1,024", "Y", "45292", ""⟩] =
        [⟨"1024", "Yes", "01/01/2024", ""⟩]
    ∧ (normalizeExcelRows [⟨"1,024", "Y", "45292", ""⟩]).1 =
        [{ id := "1,024", hasFence := "Yes",
           lastPicture := some ⟨2024, 1, 1⟩, lastChecked := none }] := by
  refine ⟨?_, ?_, by decide, by decide⟩
  · intro s hnull
    unfold normId
    rw [if_pos hnull]
  · intro s n hnull hdec
    unfold normId
    rw [if_neg hnull]
    dsimp only
    rw [hdec]

/-- Witness for C6 (amended): "1,024" is numeric-looking and normalizes to
"1024"; " null " is a null-like token and normalizes to the empty string. -/
theorem c6_norm_scenario_amended_witness :
    normId " null " = "" ∧ normId "1,024" = toString (1024 : Int) :=
  ⟨c6_norm_scenario_amended.1 " null " (by decide),
   c6_norm_scenario_amended.2.1 "1,024" 1024 (by decide) (by decide)⟩

theorem geOverlayFlagCell_cases (src cur : String) :
    geOverlayFlagCell src cur = cur ∨
      (geOverlayFlagCell src cur = "Yes" ∨ geOverlayFlagCell src cur = "No") := by
  unfold geOverlayFlagCell
  dsimp only
  by_cases h : (pyStrip src = "Yes" ∨ pyStrip src = "No") ∧ pyStrip cur ≠ pyStrip src
  · rw [if_pos h]
    exact Or.inr h.1
  · rw [if_neg h]
    exact Or.inl rfl

theorem geOverlayDateCell_cases (src cur : String) :
    geOverlayDateCell src cur = cur ∨ geOverlayDateCell src cur ≠ "" := by
  unfold geOverlayDateCell
  dsimp only
  by_cases h : pyStrip src ≠ "" ∧ pyStrip cur ≠ pyStrip src
  · rw [if_pos h]
    exact Or.inr h.1
  · rw [if_neg h]
    exact Or.inl rfl

theorem applyGeFields_idCell (g : GELatestRow) (r : LeadsRow) :
    (applyGeFields g r).idCell = r.idCell := rfl

theorem applyGeFields_fence (g : GELatestRow) (r : LeadsRow) :
    (applyGeFields g r).fence = r.fence ∨
      ((applyGeFields g r).fence = "Yes" ∨ (applyGeFields g r).fence = "No") :=
  geOverlayFlagCell_cases g.fence r.fence

theorem applyGeFields_pic (g : GELatestRow) (r : LeadsRow) :
    (applyGeFields g r).pic = r.pic ∨ (applyGeFields g r).pic ≠ "" :=
  geOverlayDateCell_cases g.pic r.pic

theorem applyGeFields_chk (g : GELatestRow) (r : LeadsRow) :
    (applyGeFields g r).chk = r.chk ∨ (applyGeFields g r).chk ≠ "" :=
  geOverlayDateCell_cases g.chk r.chk

theorem applyGeRowAt_step (idx : String → Option Nat) (rows : List LeadsRow)
    (g : GELatestRow) (j : Nat) :
    (applyGeRowAt idx rows g)[j]? = rows[j]? ∨
      (∃ r, rows[j]? = some r ∧ (applyGeRowAt idx rows g)[j]? = some (applyGeFields g r)) := by
  unfold applyGeRowAt
  dsimp only
  by_cases hrid : normId g.id = ""
  · rw [if_pos hrid]
    exact Or.inl rfl
  · rw [if_neg hrid]
    cases hix : idx (normId g.id) with
    | none => exact Or.inl rfl
    | some pos =>
        by_cases hpj : pos = j
        · subst hpj
          cases hrj : rows[pos]? with
          | none => exact Or.inl (by rw [listModify_getElem?_eq, hrj]; rfl)
          | some r =>
              exact Or.inr ⟨r, rfl, by rw [listModify_getElem?_eq, hrj]; rfl⟩
        · exact Or.inl (listModify_getElem?_ne _ hpj)

theorem geFold_frame (idx : String → Option Nat) (ge : List GELatestRow) :
    ∀ (rows : List LeadsRow) (j : Nat),
      (∀ g ∈ ge, idx (normId g.id) ≠ some j) →
      (ge.foldl (applyGeRowAt idx) rows)[j]? = rows[j]? := by
  induction ge with
  | nil => intro rows j _; rfl
  | cons g t ih =>
      intro rows j hh
      simp only [List.foldl_cons]
      rw [ih _ j (fun g' hg' => hh g' (List.mem_cons_of_mem _ hg'))]
      unfold applyGeRowAt
      dsimp only
      by_cases hrid : normId g.id = ""
      · rw [if_pos hrid]
      · rw [if_neg hrid]
        cases hix : idx (normId g.id) with
        | none => rfl
        | some pos =>
            have hpj : pos ≠ j := by
              intro hpj
              exact hh g (List.mem_cons_self g t) (by rw [hix, hpj])
            exact listModify_getElem?_ne _ hpj

theorem geFold_validity (idx : String → Option Nat) (ge : List GELatestRow) :
    ∀ (rows : List LeadsRow) (j : Nat) (r' : LeadsRow),
      (ge.foldl (applyGeRowAt idx) rows)[j]? = some r' →
      ∃ r, rows[j]? = some r ∧
        (r'.fence = r.fence ∨ r'.fence = "Yes" ∨ r'.fence = "No") ∧
        (r'.pic = r.pic ∨ r'.pic ≠ "") ∧
        (r'.chk = r.chk ∨ r'.chk ≠ "") := by
  induction ge with
  | nil =>
      intro rows j r' h
      exact ⟨r', by simpa using h, Or.inl rfl, Or.inl rfl, Or.inl rfl⟩
  | cons g t ih =>
      intro rows j r' h
      simp only [List.foldl_cons] at h
      obtain ⟨rmid, hmid, hf, hp, hc⟩ := ih _ j r' h
      rcases applyGeRowAt_step idx rows g j with hstep | ⟨r0, hr0, heq⟩
      · rw [hstep] at hmid
        exact ⟨rmid, hmid, hf, hp, hc⟩
      · have hrm : rmid = applyGeFields g r0 := by
          rw [heq] at hmid
          exact (Option.some.inj hmid).symm
        refine ⟨r0, hr0, ?_, ?_, ?_⟩
        · rcases hf with hf | hf
          · rw [hrm] at hf
            rcases applyGeFields_fence g r0 with h2 | h2
            · exact Or.inl (hf.trans h2)
            · rcases h2 with h2 | h2
              · exact Or.inr (Or.inl (by rw [hf, h2]))
              · exact Or.inr (Or.inr (by rw [hf, h2]))
          · exact Or.inr hf
        · rcases hp with hp | hp
          · rw [hrm] at hp
            rcases applyGeFields_pic g r0 with h2 | h2
            · exact Or.inl (hp.trans h2)
            · exact Or.inr (by rw [hp]; exact h2)
          · exact Or.inr hp
        · rcases hc with hc | hc
          · rw [hrm] at hc
            rcases applyGeFields_chk g r0 with h2 | h2
            · exact Or.inl (hc.trans h2)
            · exact Or.inr (by rw [hc]; exact h2)
          · exact Or.inr hc

theorem outIdxLookup_spec {rows : List LeadsRow} {k : String} {pos : Nat}
    (h : outIdxLookup rows k = some pos) :
    ∃ rr, rows[pos]? = some rr ∧ normId rr.idCell = k := by
  unfold outIdxLookup at h
  by_cases hk : k = ""
  · rw [if_pos hk] at h
    cases h
  · rw [if_neg hk] at h
    obtain ⟨rr, hrr, hp⟩ := lastIdxWith_spec h
    exact ⟨rr, hrr, by simpa using hp⟩

theorem overlay_rows_main (df : LeadsDF) (ge : List GELatestRow)
    (hd : ¬ (ge.isEmpty = true ∨ df.hasIdCol = false)) :
    (overlayGoogleEarthLatest df (Except.ok (some ge))).rows =
      ge.foldl (applyGeRowAt (outIdxLookup df.rows))
        (df.rows.map (fun r =>
          { r with fence := if df.hasFenceCol then r.fence else ""
                   pic := if df.hasPicCol then r.pic else ""
                   chk := if df.hasChkCol then r.chk else "" })) := by
  unfold overlayGoogleEarthLatest
  dsimp only
  rw [if_neg hd]

theorem overlay_rows0_id (df : LeadsDF) (hF : df.hasFenceCol = true)
    (hP : df.hasPicCol = true) (hC : df.hasChkCol = true) :
    df.rows.map (fun r =>
        { r with fence := if df.hasFenceCol then r.fence else ""
                 pic := if df.hasPicCol then r.pic else ""
                 chk := if df.hasChkCol then r.chk else "" }) = df.rows := by
  simp [hF, hP, hC]

/-- C7.  The Overlay Applier: a loader error (no matching sheet, unreadable
workbook, storage failure) or a missing object (404) returns the input
Snapshot unchanged; with an empty overlay the input is returned unchanged; a
record whose normalized identifier matches no overlay row keeps its three
overlay fields; and an overlay field that does change carries a valid value
(the fence becomes "Yes"/"No", a date cell becomes non-blank). -/
theorem c7_overlay_applier (df : LeadsDF) (ge : List GELatestRow) (e : String)
    (j : Nat) (r : LeadsRow) :
    ((overlayGoogleEarthLatest df (Except.error e) = df)
     ∧ (overlayGoogleEarthLatest df (Except.ok none) = df)
     ∧ (ge = [] → overlayGoogleEarthLatest df (Except.ok (some ge)) = df)
     ∧ (df.hasFenceCol = true → df.hasPicCol = true → df.hasChkCol = true →
        df.rows[j]? = some r →
        (∀ g ∈ ge, normId g.id ≠ normId r.idCell) →
        ((overlayGoogleEarthLatest df (Except.ok (some ge))).rows[j]?.map (fun x => x.fence)
             = some r.fence
         ∧ (overlayGoogleEarthLatest df (Except.ok (some ge))).rows[j]?.map (fun x => x.pic)
             = some r.pic
         ∧ (overlayGoogleEarthLatest df (Except.ok (some ge))).rows[j]?.map (fun x => x.chk)
             = some r.chk))
     ∧ (∀ r', df.hasFenceCol = true → df.hasPicCol = true → df.hasChkCol = true →
         df.rows[j]? = some r →
         (overlayGoogleEarthLatest df (Except.ok (some ge))).rows[j]? = some r' →
         ((r'.fence ≠ r.fence → r'.fence = "Yes" ∨ r'.fence = "No")
          ∧ (r'.pic ≠ r.pic → r'.pic ≠ "")
          ∧ (r'.chk ≠ r.chk → r'.chk ≠ "")))) := by
  refine ⟨rfl, rfl, ?_, ?_, ?_⟩
  · intro hge
    subst hge
    rfl
  · intro hF hP hC hr hkey
    by_cases hd : ge.isEmpty = true ∨ df.hasIdCol = false
    · have hrows : (overlayGoogleEarthLatest df (Except.ok (some ge))).rows = df.rows := by
        unfold overlayGoogleEarthLatest
        dsimp only
        rw [if_pos hd]
      rw [hrows, hr]
      exact ⟨rfl, rfl, rfl⟩
    · rw [overlay_rows_main df ge hd, overlay_rows0_id df hF hP hC]
      have hfr : (ge.foldl (applyGeRowAt (outIdxLookup df.rows)) df.rows)[j]? = df.rows[j]? := by
        apply geFold_frame
        intro g hg hix
        obtain ⟨rr, hrr, hkk⟩ := outIdxLookup_spec hix
        rw [hr] at hrr
        have hrrr : rr = r := (Option.some.inj hrr).symm
        subst hrrr
        exact hkey g hg hkk.symm
      rw [hfr, hr]
      exact ⟨rfl, rfl, rfl⟩
  · intro r' hF hP hC hr hr'
    by_cases hd : ge.isEmpty = true ∨ df.hasIdCol = false
    · have hrows : (overlayGoogleEarthLatest df (Except.ok (some ge))).rows = df.rows := by
        unfold overlayGoogleEarthLatest
        dsimp only
        rw [if_pos hd]
      rw [hrows, hr] at hr'
      have : r' = r := (Option.some.inj hr').symm
      subst this
      exact ⟨fun h => absurd rfl h, fun h => absurd rfl h, fun h => absurd rfl h⟩
    · rw [overlay_rows_main df ge hd, overlay_rows0_id df hF hP hC] at hr'
      obtain ⟨r0, hr0, hfe, hpi, hch⟩ := geFold_validity (outIdxLookup df.rows) ge df.rows j r' hr'
      rw [hr] at hr0
      have hrr : r0 = r := (Option.some.inj hr0).symm
      subst hrr
      refine ⟨?_, ?_, ?_⟩
      · intro hne
        rcases hfe with h | h
        · exact absurd h hne
        · exact h
      · intro hne
        rcases hpi with h | h
        · exact absurd h hne
        · exact h
      · intro hne
        rcases hch with h | h
        · exact absurd h hne
        · exact h

/-- Witness for C7: the overlay source has no entry for identifier 9999, so
that record's fence and picture-date cells are unchanged by the overlay. -/
theorem c7_overlay_applier_witness :
    (overlayGoogleEarthLatest c7df (Except.ok (some c7ge))).rows[0]?.map (fun x => x.fence)
        = some "No"
    ∧ (overlayGoogleEarthLatest c7df (Except.ok (some c7ge))).rows[0]?.map (fun x => x.pic)
        = some "05/05/2020" := by
  have h := (c7_overlay_applier c7df c7ge "" 0
      { idCell := "9999", emailCell := "", after := afterDefaults,
        fence := "No", pic := "05/05/2020", chk := "" }).2.2.2.1
      rfl rfl rfl (by decide) (by decide)
  exact ⟨h.1, h.2.1⟩

/-- Counterexample for C8: a permanently failed fetch of the pending
updates does not abort the pipeline or surface an error — the merge stage's
result is literally indistinguishable from a successful fetch of zero
updates, and the overlay stage still runs on its output. -/
theorem c8_fetch_failure_counterexample :
    (applySupabasePendingUpdates c2df (Except.error "Supabase GET timeout")
        = applySupabasePendingUpdates c2df (Except.ok []))
    ∧ (pipelineMergeAndOverlay c2df (Except.error "Supabase GET timeout")
          (Except.ok (some c7ge))
        = overlayGoogleEarthLatest c2df (Except.ok (some c7ge))) := by
  exact ⟨rfl, rfl⟩

/-- C8 (amended).  When the fetch of Pending Remote Updates fails after its
retries, the update merger degrades to a no-op: it returns the input
Snapshot unchanged, all-zero metrics and an empty processed-ids list (no
error reaches its caller — the failure is only logged), and the pipeline
continues to the overlay stage on that unchanged Snapshot; earlier-stage
outputs survive precisely because processing continues. -/
theorem c8_fetch_failure_amended (df : LeadsDF) (e : String) (ge : GELoad) :
    (applySupabasePendingUpdates df (Except.error e) = (df, zeroSbStats, []))
    ∧ (pipelineMergeAndOverlay df (Except.error e) ge = overlayGoogleEarthLatest df ge) := by
  exact ⟨rfl, rfl⟩

/-- Counterexample for C9: two duplicate non-empty identifiers — the
reported discarded-empty-identifier count is 1 although no input row has an
empty identifier (the duplicate removed by last-wins deduplication is
counted as "discarded empty"). -/
theorem c9_discarded_count_counterexample :
    (normalizeExcelRows [⟨"1", "Y", "", ""⟩, ⟨"1", "N", "", ""⟩]).2.1.discardedEmptyId = 1
    ∧ (([⟨"1", "Y", "", ""⟩, ⟨"1", "N", "", ""⟩] : List GERawRow).filter
        (fun r => pyStrip r.id = "")).length = 0 := by
  exact ⟨by decide, by decide⟩

/-- C9 (amended).  The Normalizer's discarded-empty-identifier metric is
total input rows minus rows surviving the Id filter AND last-wins
deduplication together: it equals the empty-identifier row count plus the
number of duplicate rows removed, and reduces to the empty-identifier count
exactly when the non-empty identifiers carry no duplicates. -/
theorem c9_discarded_count_amended (rows : List GERawRow) :
    ((normalizeExcelRows rows).2.1.totalRowsInput
        - (normalizeExcelRows rows).2.1.discardedEmptyId
        = (normalizeExcelRows rows).2.1.rowsAfterIdFilter)
    ∧ ((normalizeExcelRows rows).2.1.discardedEmptyId
        = (rows.filter (fun r => pyStrip r.id = "")).length
          + ((rows.filter (fun r => pyStrip r.id ≠ "")).length
             - (normalizeExcelRows rows).2.1.rowsAfterIdFilter))
    ∧ (((rows.filter (fun r => pyStrip r.id ≠ "")).map (fun r => pyStrip r.id)).Nodup →
        (normalizeExcelRows rows).2.1.discardedEmptyId
          = (rows.filter (fun r => pyStrip r.id = "")).length) := by
  have hT : (normalizeExcelRows rows).2.1.totalRowsInput = rows.length := by
    simp [normalizeExcelRows]
  have hA : (normalizeExcelRows rows).2.1.rowsAfterIdFilter =
      (dedupeLastWins (rows.map trimGERow)).length := rfl
  have hD : (normalizeExcelRows rows).2.1.discardedEmptyId =
      (normalizeExcelRows rows).2.1.totalRowsInput
        - (normalizeExcelRows rows).2.1.rowsAfterIdFilter := by
    simp [normalizeExcelRows]
  have hretrim : (rows.map trimGERow).map
        (fun r : GERawRow => { r with id := pyStrip r.id }) = rows.map trimGERow := by
    rw [List.map_map]
    apply List.map_congr_left
    intro r _
    simp [Function.comp, trimGERow, pyStrip_idem]
  have hcommute : (rows.map trimGERow).filter (fun r => r.id ≠ "") =
      (rows.filter (fun r => pyStrip r.id ≠ "")).map trimGERow := by
    rw [List.filter_map]
    rfl
  have hded : dedupeLastWins (rows.map trimGERow) =
      keepLastWins (fun r => r.id)
        ((rows.filter (fun r => pyStrip r.id ≠ "")).map trimGERow) := by
    unfold dedupeLastWins
    rw [hretrim, hcommute]
  have hle : (normalizeExcelRows rows).2.1.rowsAfterIdFilter
      ≤ (rows.filter (fun r => pyStrip r.id ≠ "")).length := by
    rw [hA, hded]
    calc (keepLastWins (fun r : GERawRow => r.id)
            ((rows.filter (fun r => pyStrip r.id ≠ "")).map trimGERow)).length
        ≤ ((rows.filter (fun r => pyStrip r.id ≠ "")).map trimGERow).length :=
          length_keepLastWins_le _ _
      _ = (rows.filter (fun r => pyStrip r.id ≠ "")).length := List.length_map _ _
  have hpart := length_filter_add_length_filter_not
      (fun r : GERawRow => decide (pyStrip r.id = "")) rows
  have hFF : rows.filter (fun x : GERawRow => ! decide (pyStrip x.id = "")) =
      rows.filter (fun r => pyStrip r.id ≠ "") := by
    apply List.filter_congr
    intro r _
    simp [decide_not]
  rw [hFF] at hpart
  refine ⟨?_, ?_, ?_⟩
  · rw [hD]
    omega
  · rw [hD, hT]
    omega
  · intro hnd
    have hkeys : (((rows.filter (fun r => pyStrip r.id ≠ "")).map trimGERow).map
          (fun r => r.id)).Nodup := by
      rw [List.map_map]
      exact hnd
    have hself := keepLastWins_eq_self_of_nodup hkeys
    have hAe : (normalizeExcelRows rows).2.1.rowsAfterIdFilter
        = (rows.filter (fun r => pyStrip r.id ≠ "")).length := by
      rw [hA, hded, hself, List.length_map]
    rw [hD, hT, hAe]
    omega

/-- Witness for C9 (amended): with distinct non-empty identifiers and one
whitespace-only identifier, the discarded count equals the empty-identifier
row count. -/
theorem c9_discarded_count_amended_witness :
    (normalizeExcelRows
        [⟨"1", "Y", "", ""⟩, ⟨"2", "N", "", ""⟩, ⟨" ", "", "", ""⟩]).2.1.discardedEmptyId
      = (([⟨"1", "Y", "", ""⟩, ⟨"2", "N", "", ""⟩, ⟨" ", "", "", ""⟩] : List GERawRow).filter
          (fun r => pyStrip r.id = "")).length :=
  (c9_discarded_count_amended
    [⟨"1", "Y", "", ""⟩, ⟨"2", "N", "", ""⟩, ⟨" ", "", "", ""⟩]).2.2 (by decide)
